import Mathlib

/-!
# Verification of the climp argument tokenizer and accumulator library

A shallow embedding of the library's three core components, translated from
the JavaScript source:

* `ArgParser` (src/ArgParser.js) — the incremental tokenizer;
* `Box` (src/Box.js) — the single-slot accumulator with lazy default
  resolution;
* `Arg` (src/Arg.js) — the binding layer (only the parts the claims need).

JavaScript strings are modelled as `List Char` (`JStr`); `undefined` is
modelled as `Option.none` where a value may be absent, and JavaScript
exceptions are modelled with `Except`.
-/

namespace Climp

/-- JavaScript strings, modelled as lists of characters.  All string
operations the source uses (`startsWith`, `indexOf`, `slice`, `s[0]`,
`length`) are per-character operations, so the list model is exact. -/
abbrev JStr := List Char

/-- `s.startsWith(pre)` on JavaScript strings. -/
def jsStartsWith : JStr → JStr → Bool
  | _, [] => true
  | [], _ :: _ => false
  | c :: cs, p :: ps => c = p && jsStartsWith cs ps

/-- The tokenizer's internal state field: `"default" | "dash" | "value"`. -/
inductive PState where
  | default
  | dash
  | value
deriving DecidableEq, Repr

/-- The `ArgParser` object's fields (src/ArgParser.js, constructor).
`current = none` models `this.current === undefined`. -/
structure ArgParser where
  i : Nat
  argv : List JStr
  current : Option JStr
  state : PState
  buffer : JStr
  isRest : Bool
  isFlag : Bool
  isValue : Bool
deriving DecidableEq, Repr

namespace ArgParser

/-- `_clearBuffer()`: `this.state = "default"; this.buffer = ""`. -/
def clearBuffer (p : ArgParser) : ArgParser :=
  { p with state := .default, buffer := [] }

/-- `_handleDash()`.  When the buffer is empty, `this.buffer[0]` is
`undefined` and `"-" + this.buffer[0]` string-concatenates to
`"-undefined"`; `this.buffer.length > 1` is then false, so the buffer is
cleared. -/
def handleDash (p : ArgParser) : ArgParser :=
  match p.buffer with
  | '=' :: rest =>
      -- buffer[0] === "=": emit the remainder after "=" as a value token
      { p with isFlag := false, isValue := true, current := some rest,
               state := .default, buffer := [] }
  | c :: rest =>
      -- current = "-" + buffer[0]; keep the tail if buffer.length > 1
      if rest ≠ [] then
        { p with current := some ['-', c], buffer := rest }
      else
        { p with current := some ['-', c], state := .default, buffer := [] }
  | [] =>
      -- buffer[0] is undefined: current = "-" + undefined = "-undefined"
      { p with current := some "-undefined".data, state := .default, buffer := [] }

/-- `_process(str)` where `str` is always `this.argv[this.i]` at the call
site (both call sites pass exactly that), so the argument is read from the
structure.

The `str === "--"` branch of the source sets `isRest`/`isFlag`/`isValue`
and then calls `this.next()`.  `_process` only ever runs in the
`"default"` state (it is called from the constructor and from `next()`'s
`"default"` branch only, and this branch does not change the state), so
that `next()` is `this._process(this.argv[++this.i])`; with `isRest` now
set, that `_process` call takes its first branch and passes the raw
argument (or `undefined`) through verbatim with `isFlag`/`isValue`
cleared.  The branch below writes that result directly.

The source's `this.isValue = false` assignment made on entry to the final
three branches is folded into each of their record updates. -/
def process (p : ArgParser) : ArgParser :=
  match p.argv[p.i]? with
  | none =>
      { p with current := none, isFlag := false, isValue := false }
  | some s =>
      if p.isRest then
        { p with current := some s, isFlag := false, isValue := false }
      else if s = "--".data then
        { p with isRest := true, i := p.i + 1, current := p.argv[p.i + 1]?,
                 isFlag := false, isValue := false }
      else if jsStartsWith s "--".data then
        match s.findIdx? (fun c => c = '=') with
        | some eq =>
            { p with isValue := false, isFlag := true, state := .value,
                     buffer := s.drop (eq + 1), current := some (s.take eq) }
        | none =>
            { p with isValue := false, isFlag := true, current := some s }
      else if jsStartsWith s "-".data then
        handleDash { p with isValue := false, isFlag := true, state := .dash,
                            buffer := s.drop 1 }
      else
        { p with isValue := false, isFlag := false, current := some s }

/-- `next()`. -/
def next (p : ArgParser) : ArgParser :=
  match p.state with
  | .default => process { p with i := p.i + 1 }
  | .dash => handleDash p
  | .value =>
      { p with isFlag := false, isValue := true, current := some p.buffer,
               state := .default, buffer := [] }

/-- `nextValue()`.  In the `"dash"` state with an empty buffer,
`this.buffer[0]` is `undefined`, which is `!== "="`. -/
def nextValue (p : ArgParser) : ArgParser :=
  if p.state = .dash ∧ p.buffer.head? ≠ some '=' then
    { p with current := some p.buffer, isFlag := false, isValue := true,
             state := .default, buffer := [] }
  else
    next p

/-- The constructor `new ArgParser(argv)`: initialize the fields, then
`this._process(this.argv[this.i])`. -/
def init (argv : List JStr) : ArgParser :=
  process { i := 0, argv := argv, current := none, state := .default,
            buffer := [], isRest := false, isFlag := false, isValue := false }

/-- `isDone`: `this.current === undefined`. -/
def isDone (p : ArgParser) : Bool :=
  p.current.isNone

/-- The two errors `readValue()` can throw: `"expected value"` (the spec's
`MissingValue`) and `"expected value, not flag"` (the spec's
`UnexpectedFlag`). -/
inductive ReadErr where
  | missingValue
  | unexpectedFlag
deriving DecidableEq, Repr

/-- `readValue()`: returns the captured text together with the advanced
parser (the source mutates `this` and returns the text). -/
def readValue (p : ArgParser) : Except ReadErr (JStr × ArgParser) :=
  match p.current with
  | none => .error .missingValue
  | some c => if p.isFlag then .error .unexpectedFlag else .ok (c, p.next)

/-- `readOptionalValue()`: `this.isValue ? this.readValue() : undefined`. -/
def readOptionalValue (p : ArgParser) : Except ReadErr (Option JStr × ArgParser) :=
  if p.isValue then
    match p.readValue with
    | .error e => .error e
    | .ok (v, q) => .ok (some v, q)
  else
    .ok (none, p)

end ArgParser

/-- The `Box` lifecycle states: `"pending" | "filled" | "empty"`. -/
inductive BoxState where
  | pending
  | filled
  | empty
deriving DecidableEq, Repr

/-- The errors the `Box` layer can throw: `"duplicate argument"`,
`"argument required"` and `"handled did not resolve"`. -/
inductive BoxErr where
  | duplicateArgument
  | requiredArgumentMissing
  | handlerDidNotResolve
deriving DecidableEq, Repr

/-- The `Box` object's data fields.  `this.content` starts out `undefined`
and is set back to `undefined` by `setEmpty()`; `undefined` is modelled by
the `Inhabited` default of `T`, which is exactly what a JavaScript
function receiving the content would be handed.  The `defaultHandler`
field is a closure supplied at construction; it is modelled separately
(see `resolve`), since the closures built by `Box.map` capture another
box. -/
structure Box (T : Type) where
  state : BoxState
  content : T
deriving DecidableEq, Repr

namespace Box

variable {T U : Type}

/-- A freshly constructed box: `state = "pending"`, content `undefined`.
Both `Box.empty()` and `Box.withDefault(v)` return such a box (they
differ only in the `defaultHandler` they install). -/
def pendingBox [Inhabited T] : Box T :=
  { state := .pending, content := default }

/-- `setContent(content)`: throws `"duplicate argument"` when already
filled, otherwise fills the box. -/
def setContent (b : Box T) (v : T) : Except BoxErr (Box T) :=
  if b.state = .filled then .error .duplicateArgument
  else .ok { state := .filled, content := v }

/-- `setEmpty()`: unconditionally `this.state = "empty";
this.content = undefined`. -/
def setEmpty [Inhabited T] (_b : Box T) : Box T :=
  { state := .empty, content := default }

/-- The `defaultHandler` installed by `Box.empty()`. -/
def emptyHandler [Inhabited T] : Box T → Except BoxErr (Box T) :=
  fun box => .ok box.setEmpty

/-- The `defaultHandler` installed by `Box.withDefault(val)`. -/
def defaultHandler (val : T) : Box T → Except BoxErr (Box T) :=
  fun box => box.setContent val

/-- `_resolve()`: run the `defaultHandler` (passed in as `h`, since the
source stores it in the box at construction) when still pending, and
throw `"handled did not resolve"` if the handler left the box pending. -/
def resolve (h : Box T → Except BoxErr (Box T)) (b : Box T) :
    Except BoxErr (Box T) :=
  if b.state = .pending then
    match h b with
    | .error e => .error e
    | .ok b' =>
        if b'.state = .pending then .error .handlerDidNotResolve else .ok b'
  else
    .ok b

/-- `get()`: resolve, throw `"argument required"` when empty, otherwise
return `this.content` (together with the box, whose resolution the source
performs by mutation). -/
def get (h : Box T → Except BoxErr (Box T)) (b : Box T) :
    Except BoxErr (T × Box T) :=
  match resolve h b with
  | .error e => .error e
  | .ok b' =>
      if b'.state = .empty then .error .requiredArgumentMissing
      else .ok (b'.content, b')

/-- The getter `isEmpty`: resolve, then report whether the state is
`"empty"`. -/
def isEmpty (h : Box T → Except BoxErr (Box T)) (b : Box T) :
    Except BoxErr (Bool × Box T) :=
  match resolve h b with
  | .error e => .error e
  | .ok b' => .ok (decide (b'.state = .empty), b')

/-- The closure installed as `defaultHandler` by `map(mapper)`:
`if (this.isEmpty) box.setEmpty(); else box.setContent(mapper(this.get()))`.
It reads (and thereby resolves) the captured source box `src`, so it
returns the updated source alongside the derived box. -/
def mapHandler [Inhabited U] (h : Box T → Except BoxErr (Box T))
    (src : Box T) (f : T → U) (d : Box U) :
    Except BoxErr (Box T × Box U) :=
  match isEmpty h src with
  | .error e => .error e
  | .ok (e, src') =>
      if e then
        .ok (src', d.setEmpty)
      else
        match get h src' with
        | .error e => .error e
        | .ok (v, src'') =>
            match d.setContent (f v) with
            | .error e => .error e
            | .ok d' => .ok (src'', d')

/-- The first read of the box returned by `map(mapper)`: `map` returns a
fresh pending box whose `defaultHandler` is `mapHandler`, and `_resolve`
runs that handler on first access, then checks the box is no longer
pending. -/
def mapResolve [Inhabited U] (h : Box T → Except BoxErr (Box T))
    (src : Box T) (f : T → U) : Except BoxErr (Box T × Box U) :=
  match mapHandler h src f (pendingBox : Box U) with
  | .error e => .error e
  | .ok (src', d) =>
      if d.state = .pending then .error .handlerDidNotResolve else .ok (src', d)

end Box

/-- The errors the `Arg` layer can throw: `"duplicate runner configured"`
and `"unexpected argument"`. -/
inductive ArgErr where
  | duplicateRunner
  | unexpectedArgument
deriving DecidableEq, Repr

/-- The `Arg` object's record fields: `expectsValue`, and whether
`_runner` is set (the runner itself is a closure; the one installed by
`boolean()` is modelled as `Arg.booleanRunner`). -/
structure Arg where
  expectsValue : Bool
  hasRunner : Bool
deriving DecidableEq, Repr

namespace Arg

/-- `new Arg()`: `this.expectsValue = false`, no runner. -/
def new : Arg :=
  { expectsValue := false, hasRunner := false }

/-- `setRunner(runner)`: throws `"duplicate runner configured"` when a
runner is already set. -/
def setRunner (a : Arg) : Except ArgErr Arg :=
  if a.hasRunner then .error .duplicateRunner
  else .ok { a with hasRunner := true }

/-- The effect of `boolean()` on the `Arg` record: it calls
`setRunner(...)` and leaves `expectsValue` untouched. -/
def boolean (a : Arg) : Except ArgErr Arg :=
  a.setRunner

/-- The box created by `boolean()`: `Box.withDefault(false)`, i.e. a
pending box whose `defaultHandler` is `booleanBoxHandler`. -/
def booleanBox : Box Bool :=
  Box.pendingBox

/-- The `defaultHandler` of the box created by `boolean()`:
`box.setContent(false)`. -/
def booleanBoxHandler : Box Bool → Except BoxErr (Box Bool) :=
  Box.defaultHandler false

/-- The runner `boolean()` registers: `() => { box.setContent(true); }`. -/
def booleanRunner : Box Bool → Except BoxErr (Box Bool) :=
  fun box => box.setContent true

end Arg

/-- The tokenizer operations a consumer can invoke after construction. -/
inductive Op where
  | next
  | nextValue
  | readValue
  | readOptionalValue
deriving DecidableEq, Repr

namespace ArgParser

/-- One consumer operation on the tokenizer.  The advancing operations
`next`/`nextValue` are total; `readValue`/`readOptionalValue` may throw. -/
def step (p : ArgParser) : Op → Except ReadErr ArgParser
  | .next => .ok p.next
  | .nextValue => .ok p.nextValue
  | .readValue => (p.readValue).map (fun r => r.2)
  | .readOptionalValue => (p.readOptionalValue).map (fun r => r.2)

/-- Run a sequence of consumer operations, stopping at the first error. -/
def runOps (p : ArgParser) : List Op → Except ReadErr ArgParser
  | [] => .ok p
  | op :: ops =>
      match p.step op with
      | .ok q => runOps q ops
      | .error e => .error e

/-- The tokenizer states reachable from `new ArgParser(argv)` by `next()`
and `nextValue()` calls. -/
inductive Reach (argv : List JStr) : ArgParser → Prop where
  | init : Reach argv (ArgParser.init argv)
  | next {p : ArgParser} : Reach argv p → Reach argv p.next
  | nextValue {p : ArgParser} : Reach argv p → Reach argv p.nextValue

/-- `ReachFrom p q`: `q` is a later state of the same tokenizer, obtained
from `p` by `next()` and `nextValue()` calls. -/
inductive ReachFrom : ArgParser → ArgParser → Prop where
  | refl (p : ArgParser) : ReachFrom p p
  | next {p q : ArgParser} : ReachFrom p q → ReachFrom p q.next
  | nextValue {p q : ArgParser} : ReachFrom p q → ReachFrom p q.nextValue

/-- The rest-region invariant: when `isRest` is set, the tokenizer is in
the `"default"` state and the current token is the raw argument at the
cursor, verbatim, classified neither flag nor value. -/
def RestInv (p : ArgParser) : Prop :=
  p.isRest = true →
    p.state = .default ∧ p.isFlag = false ∧ p.isValue = false
      ∧ p.current = p.argv[p.i]?

/-- The classification invariant: a token is never classified both flag
and value, and an exhausted parser carries neither classification. -/
def FlagInv (p : ArgParser) : Prop :=
  (p.isFlag = true → p.isValue = false)
    ∧ (p.current = none → p.isFlag = false ∧ p.isValue = false)

end ArgParser

/-! ## Claim theorems -/

open ArgParser

/-- C1: For the input sequence `["-abcdef"]`, after construction the
current token is the flag `-a`; after two plain advances the current
token is the flag `-c`; a subsequent `nextValue()` call makes the current
token `def` as a single token with `isFlag = false` and `isValue = true`
(rather than peeling further flag tokens `-d`, `-e`, `-f`). -/
theorem c1_cluster_nextValue_emits_remaining_buffer :
    (ArgParser.init ["-abcdef".data]).current = some "-a".data
  ∧ (ArgParser.init ["-abcdef".data]).isFlag = true
  ∧ (ArgParser.init ["-abcdef".data]).isValue = false
  ∧ (ArgParser.init ["-abcdef".data]).next.next.current = some "-c".data
  ∧ (ArgParser.init ["-abcdef".data]).next.next.isFlag = true
  ∧ (ArgParser.init ["-abcdef".data]).next.next.isValue = false
  ∧ (ArgParser.init ["-abcdef".data]).next.next.nextValue.current = some "def".data
  ∧ (ArgParser.init ["-abcdef".data]).next.next.nextValue.isFlag = false
  ∧ (ArgParser.init ["-abcdef".data]).next.next.nextValue.isValue = true := by
  decide

/-- C2: For the input sequence `["-abc=def"]`, repeated plain advances
produce exactly the tokens `-a`, `-b`, `-c` (each `isFlag = true`,
`isValue = false`) and then `def` (`isFlag = false`, `isValue = true`),
after which the tokenizer is done. -/
theorem c2_cluster_with_equals_tokenization :
    (ArgParser.init ["-abc=def".data]).current = some "-a".data
  ∧ (ArgParser.init ["-abc=def".data]).isFlag = true
  ∧ (ArgParser.init ["-abc=def".data]).isValue = false
  ∧ (ArgParser.init ["-abc=def".data]).next.current = some "-b".data
  ∧ (ArgParser.init ["-abc=def".data]).next.isFlag = true
  ∧ (ArgParser.init ["-abc=def".data]).next.isValue = false
  ∧ (ArgParser.init ["-abc=def".data]).next.next.current = some "-c".data
  ∧ (ArgParser.init ["-abc=def".data]).next.next.isFlag = true
  ∧ (ArgParser.init ["-abc=def".data]).next.next.isValue = false
  ∧ (ArgParser.init ["-abc=def".data]).next.next.next.current = some "def".data
  ∧ (ArgParser.init ["-abc=def".data]).next.next.next.isFlag = false
  ∧ (ArgParser.init ["-abc=def".data]).next.next.next.isValue = true
  ∧ (ArgParser.init ["-abc=def".data]).next.next.next.next.isDone = true := by
  decide

/-- C9: For the single raw argument `"-"` (a lone dash), the tokenizer
does not emit `-` as the token text: the initial current token has text
`"-undefined"` (the dash concatenated with the string form of
JavaScript's `undefined`, the post-dash buffer being empty) with
`isFlag = true` and `isValue = false`, and one plain advance reaches
`isDone`. -/
theorem c9_lone_dash_yields_dash_undefined :
    (ArgParser.init ["-".data]).current = some "-undefined".data
  ∧ (ArgParser.init ["-".data]).isFlag = true
  ∧ (ArgParser.init ["-".data]).isValue = false
  ∧ (ArgParser.init ["-".data]).next.isDone = true := by
  decide

/-- C5: `readValue()` fails with `MissingValue` exactly when there is no
current token (`isDone`); fails with `UnexpectedFlag` exactly when a
current token exists and is classified as a flag; and otherwise returns
the current token's text and advances with plain-advance (`next()`)
semantics. -/
theorem c5_readValue_error_and_success_conditions (p : ArgParser) :
    (p.readValue = .error .missingValue ↔ p.isDone = true)
  ∧ (p.readValue = .error .unexpectedFlag ↔ (p.isDone = false ∧ p.isFlag = true))
  ∧ (∀ s : JStr, p.current = some s → p.isFlag = false →
      p.readValue = .ok (s, p.next)) := by
  rcases hc : p.current with _ | s <;>
    cases hf : p.isFlag <;>
      simp [ArgParser.readValue, ArgParser.isDone, hc, hf]

/-- Witness for C5 at concrete inputs: both error cases and the success
case, each discharged by applying the theorem. -/
theorem c5_readValue_witness :
    (ArgParser.init ["x".data]).readValue
      = .ok ("x".data, (ArgParser.init ["x".data]).next)
  ∧ (ArgParser.init []).readValue = .error .missingValue
  ∧ (ArgParser.init ["-f".data]).readValue = .error .unexpectedFlag := by
  refine ⟨?_, ?_, ?_⟩
  · exact (c5_readValue_error_and_success_conditions
      (ArgParser.init ["x".data])).2.2 "x".data (by decide) (by decide)
  · exact ((c5_readValue_error_and_success_conditions
      (ArgParser.init [])).1).mpr (by decide)
  · exact ((c5_readValue_error_and_success_conditions
      (ArgParser.init ["-f".data])).2.1).mpr (by decide)

/-- C6: the tokenizer is total: constructing the parser from any raw
argument list and performing any sequence of `next()` and `nextValue()`
calls never produces an error (in the operation semantics where the
consumption operations `readValue`/`readOptionalValue` can fail). -/
theorem c6_advance_operations_never_fail (argv : List JStr) (ops : List Op)
    (h : ∀ op ∈ ops, op = Op.next ∨ op = Op.nextValue) :
    ∃ q : ArgParser, (ArgParser.init argv).runOps ops = .ok q := by
  suffices H : ∀ (l : List Op), (∀ op ∈ l, op = Op.next ∨ op = Op.nextValue) →
      ∀ p : ArgParser, ∃ q : ArgParser, p.runOps l = .ok q from
    H ops h (ArgParser.init argv)
  intro l hl
  induction l with
  | nil => exact fun p => ⟨p, rfl⟩
  | cons op rest ih =>
      intro p
      have hrest : ∀ op ∈ rest, op = Op.next ∨ op = Op.nextValue :=
        fun o ho => hl o (List.mem_cons_of_mem _ ho)
      rcases hl op (List.mem_cons_self op rest) with h1 | h1 <;> subst h1
      · simpa [ArgParser.runOps, ArgParser.step] using ih hrest p.next
      · simpa [ArgParser.runOps, ArgParser.step] using ih hrest p.nextValue

/-- C3 counterexample: the transition out of `pending` is not
once-and-for-all.  A box filled by `setContent` is moved back out of the
filled state by a later `setEmpty`, and a box in the empty state is moved
to filled by a later `setContent` — both direct writes succeed in
changing the state, contrary to the claim. -/
theorem c3_counterexample_state_changes_after_fill :
    (Box.mk BoxState.pending (0 : Nat)).setContent 1 = .ok (Box.mk .filled 1)
  ∧ (Box.mk BoxState.filled (1 : Nat)).setEmpty = Box.mk .empty 0
  ∧ (Box.mk BoxState.empty (0 : Nat)).setContent 2 = .ok (Box.mk .filled 2) :=
  ⟨rfl, rfl, rfl⟩

/-- C3 amended: the only guarded transition is re-filling a filled box —
`setContent` on a filled box fails with the duplicate-argument error and
`setContent` on any non-filled box (pending or empty) succeeds and fills
it, while `setEmpty` unconditionally sets the state to empty (even on a
filled box).  The pending state is never re-entered. -/
theorem c3_amended_only_refill_is_guarded {T : Type} [Inhabited T]
    (b : Box T) (v : T) :
    (b.state = .filled → b.setContent v = .error .duplicateArgument)
  ∧ (b.state ≠ .filled → b.setContent v = .ok (Box.mk .filled v))
  ∧ b.setEmpty = Box.mk .empty default := by
  refine ⟨fun h => ?_, fun h => ?_, rfl⟩
  · simp [Box.setContent, h]
  · simp [Box.setContent, h]

/-- Witness for C3's amended theorem at concrete boxes, discharging both
hypotheses. -/
theorem c3_amended_witness :
    (Box.mk BoxState.filled (0 : Nat)).setContent 5 = .error .duplicateArgument
  ∧ (Box.mk BoxState.empty (0 : Nat)).setContent 5 = .ok (Box.mk .filled 5) :=
  ⟨(c3_amended_only_refill_is_guarded (Box.mk .filled 0) 5).1 rfl,
   (c3_amended_only_refill_is_guarded (Box.mk .empty 0) 5).2.1 (by decide)⟩

/-- C7: a Binding built with the toggle builder (`boolean()`) has
`expectsValue = false`; its accumulator resolves to `false` when the
trigger is never matched; and the registered strategy sets the
accumulator's content to `true` — any successful invocation leaves the
box filled with `true`, and from any not-yet-filled box the invocation
succeeds. -/
theorem c7_boolean_builder_toggle_semantics :
    Arg.boolean Arg.new = .ok (Arg.mk false true)
  ∧ Box.get Arg.booleanBoxHandler Arg.booleanBox = .ok (false, Box.mk .filled false)
  ∧ (∀ b : Box Bool, b.state ≠ .filled →
      Arg.booleanRunner b = .ok (Box.mk .filled true))
  ∧ (∀ b b' : Box Bool, Arg.booleanRunner b = .ok b' →
      b'.state = .filled ∧ b'.content = true) := by
  refine ⟨rfl, rfl, fun b hb => ?_, fun b b' hb => ?_⟩
  · simp [Arg.booleanRunner, Box.setContent, hb]
  · unfold Arg.booleanRunner Box.setContent at hb
    split at hb
    · cases hb
    · cases hb
      exact ⟨rfl, rfl⟩

/-- Witness for C7 at a concrete box (the pending box of a fresh toggle),
discharging the hypotheses of both universally quantified conjuncts. -/
theorem c7_boolean_builder_witness :
    Arg.booleanRunner Arg.booleanBox = .ok (Box.mk .filled true)
  ∧ ((Box.mk BoxState.filled true).state = .filled
      ∧ (Box.mk BoxState.filled true).content = true) :=
  ⟨(c7_boolean_builder_toggle_semantics).2.2.1 Arg.booleanBox (by decide),
   (c7_boolean_builder_toggle_semantics).2.2.2 Arg.booleanBox
     (Box.mk .filled true)
     ((c7_boolean_builder_toggle_semantics).2.2.1 Arg.booleanBox (by decide))⟩

/-- Helper: a successful `_resolve` never leaves the box pending. -/
theorem Box.resolve_ok_state {T : Type} {h : Box T → Except BoxErr (Box T)}
    {b b' : Box T} (hr : Box.resolve h b = .ok b') : b'.state ≠ .pending := by
  unfold Box.resolve at hr
  split at hr
  · split at hr
    · cases hr
    · split at hr
      · cases hr
      · cases hr
        assumption
  · cases hr
    assumption

/-- Helper: resolving a non-pending box is a no-op. -/
theorem Box.resolve_of_ne_pending {T : Type} {h : Box T → Except BoxErr (Box T)}
    {b : Box T} (hb : b.state ≠ .pending) : Box.resolve h b = .ok b := by
  unfold Box.resolve
  simp [hb]

/-- C8: the accumulator derived by `map` has the same emptiness as its
source as of the source's resolution (`isEmpty` of the source returns
exactly the derived box's emptiness, together with the resolved source),
and whenever it is not empty it is filled with the mapper applied to the
resolved source's content (which is what `get` returns on each box). -/
theorem c8_map_same_emptiness_and_content {T U : Type} [Inhabited U]
    (h : Box T → Except BoxErr (Box T)) (b : Box T) (f : T → U)
    (b' : Box T) (d : Box U)
    (hres : Box.mapResolve h b f = .ok (b', d)) :
    Box.isEmpty h b = .ok (decide (d.state = .empty), b')
  ∧ (d.state = .empty ↔ b'.state = .empty)
  ∧ (d.state ≠ .empty → d.state = .filled ∧ d.content = f b'.content) := by
  unfold Box.mapResolve Box.mapHandler at hres
  rcases hr : Box.resolve h b with e | b₁
  · simp only [Box.isEmpty, hr] at hres
    cases hres
  · have hb₁ : b₁.state ≠ .pending := Box.resolve_ok_state hr
    simp only [Box.isEmpty, hr] at hres
    cases hs : b₁.state with
    | pending => exact absurd hs hb₁
    | empty =>
        rw [hs] at hres
        simp only [Box.setEmpty, Box.pendingBox] at hres
        simp at hres
        obtain ⟨hb', hd⟩ := hres
        subst hb'
        subst hd
        simp [Box.isEmpty, hr, hs]
    | filled =>
        simp only [Box.get, Box.resolve_of_ne_pending hb₁, hs] at hres
        simp only [Box.setContent, Box.pendingBox] at hres
        simp at hres
        obtain ⟨hb', hd⟩ := hres
        subst hb'
        subst hd
        simp [Box.isEmpty, hr, hs]

/-- Witness for C8 at a concrete source box, default handler and mapper,
discharging the resolution hypothesis and the non-emptiness hypothesis. -/
theorem c8_map_witness :
    Box.isEmpty (Box.defaultHandler 0) (Box.pendingBox : Box Nat)
      = .ok (decide ((Box.mk BoxState.filled (1 : Nat)).state = .empty),
             Box.mk .filled 0)
  ∧ ((Box.mk BoxState.filled (1 : Nat)).state = .empty
      ↔ (Box.mk BoxState.filled (0 : Nat)).state = .empty)
  ∧ ((Box.mk BoxState.filled (1 : Nat)).state = .filled
      ∧ (Box.mk BoxState.filled (1 : Nat)).content
          = Nat.succ (Box.mk BoxState.filled (0 : Nat)).content) := by
  have H := c8_map_same_emptiness_and_content (Box.defaultHandler 0)
    (Box.pendingBox : Box Nat) Nat.succ (Box.mk .filled 0)
    (Box.mk .filled 1) rfl
  exact ⟨H.1, H.2.1, H.2.2 (by decide)⟩

/-- Witness for C6: a concrete argument list and operation sequence. -/
theorem c6_advance_operations_witness :
    ∃ q : ArgParser,
      (ArgParser.init ["-abc".data, "--".data, "-x".data]).runOps
        [Op.next, Op.nextValue, Op.next, Op.next] = .ok q :=
  c6_advance_operations_never_fail ["-abc".data, "--".data, "-x".data]
    [Op.next, Op.nextValue, Op.next, Op.next] (by decide)

/-- Helper: `_handleDash` never touches `isRest`. -/
theorem isRest_handleDash (p : ArgParser) : (handleDash p).isRest = p.isRest := by
  unfold handleDash
  split
  · rfl
  · split <;> rfl
  · rfl

/-- Helper: `_process` never clears `isRest`. -/
theorem isRest_process_of {p : ArgParser} (h : p.isRest = true) :
    (process p).isRest = true := by
  unfold process
  repeat' split
  all_goals first
    | rfl
    | exact h

/-- Helper: `next()` never clears `isRest`. -/
theorem isRest_next_of {p : ArgParser} (h : p.isRest = true) :
    p.next.isRest = true := by
  unfold next
  split
  · exact isRest_process_of h
  · rw [isRest_handleDash]
    exact h
  · exact h

/-- Helper: `nextValue()` never clears `isRest`. -/
theorem isRest_nextValue_of {p : ArgParser} (h : p.isRest = true) :
    p.nextValue.isRest = true := by
  unfold nextValue
  split
  · exact h
  · exact isRest_next_of h

/-- Helper: `isRest` is monotonic along any later states. -/
theorem isRest_reachFrom {p q : ArgParser} (hq : ReachFrom p q)
    (h : p.isRest = true) : q.isRest = true := by
  induction hq with
  | refl => exact h
  | next _ ih => exact isRest_next_of ih
  | nextValue _ ih => exact isRest_nextValue_of ih

/-- Helper: `_process`, run in the `"default"` state, establishes the
rest-region invariant. -/
theorem restInv_process {p : ArgParser} (hs : p.state = .default) :
    RestInv (process p) := by
  unfold RestInv process
  repeat' split
  all_goals intro hcontr
  all_goals simp_all [isRest_handleDash]

/-- Helper: `next()` preserves the rest-region invariant. -/
theorem restInv_next {p : ArgParser} (hI : RestInv p) : RestInv p.next := by
  unfold next
  cases hst : p.state with
  | default => exact restInv_process rfl
  | dash =>
      intro hcontr
      rw [isRest_handleDash] at hcontr
      rw [(hI hcontr).1] at hst
      cases hst
  | value =>
      intro hcontr
      rw [(hI hcontr).1] at hst
      cases hst

/-- Helper: `nextValue()` preserves the rest-region invariant. -/
theorem restInv_nextValue {p : ArgParser} (hI : RestInv p) :
    RestInv p.nextValue := by
  unfold nextValue
  split
  · rename_i hcond
    intro hcontr
    rw [(hI hcontr).1] at hcond
    cases hcond.1
  · exact restInv_next hI

/-- C4: in every reachable tokenizer state, once the literal `--` has
been consumed (`isRest` set), the current token has `isFlag = false`,
`isValue = false` and its text is the raw argument at the cursor,
verbatim; and `isRest` is monotonic — it stays set in every later state
of the same tokenizer. -/
theorem c4_rest_region_verbatim_and_monotonic (argv : List JStr)
    (p : ArgParser) (hp : Reach argv p) :
    (p.isRest = true →
      p.isFlag = false ∧ p.isValue = false ∧ p.current = p.argv[p.i]?)
  ∧ (p.isRest = true → ∀ q : ArgParser, ReachFrom p q → q.isRest = true) := by
  have hInv : RestInv p := by
    induction hp with
    | init => exact restInv_process rfl
    | next _ ih => exact restInv_next ih
    | nextValue _ ih => exact restInv_nextValue ih
  exact ⟨fun h => ⟨(hInv h).2.1, (hInv h).2.2.1, (hInv h).2.2.2⟩,
         fun h _q hq => isRest_reachFrom hq h⟩

/-- Witness for C4 on the concrete input `["--", "-x", "-y"]`, whose
initial state is already in the rest region: the current token is the
verbatim `-x` with both classifications false, and `isRest` is still set
two advances later. -/
theorem c4_rest_region_witness :
    (ArgParser.init ["--".data, "-x".data, "-y".data]).isFlag = false
  ∧ (ArgParser.init ["--".data, "-x".data, "-y".data]).isValue = false
  ∧ (ArgParser.init ["--".data, "-x".data, "-y".data]).current
      = (ArgParser.init ["--".data, "-x".data, "-y".data]).argv[
          (ArgParser.init ["--".data, "-x".data, "-y".data]).i]?
  ∧ (ArgParser.init ["--".data, "-x".data, "-y".data]).next.next.isRest = true := by
  have H := c4_rest_region_verbatim_and_monotonic
    ["--".data, "-x".data, "-y".data]
    (ArgParser.init ["--".data, "-x".data, "-y".data]) Reach.init
  have h1 := H.1 (by decide)
  exact ⟨h1.1, h1.2.1, h1.2.2,
         H.2 (by decide) _ (ReachFrom.next (ReachFrom.next (ReachFrom.refl _)))⟩

/-- Helper: `_handleDash` preserves the classification invariant (its
input always has a flag-classification consistent with `isValue`). -/
theorem flagInv_handleDash {p : ArgParser}
    (h : p.isFlag = true → p.isValue = false) : FlagInv (handleDash p) := by
  unfold FlagInv handleDash
  split
  · exact ⟨(fun hcontr => nomatch hcontr), (fun hcontr => nomatch hcontr)⟩
  · split
    · exact ⟨h, (fun hcontr => nomatch hcontr)⟩
    · exact ⟨h, (fun hcontr => nomatch hcontr)⟩
  · exact ⟨h, (fun hcontr => nomatch hcontr)⟩

/-- Helper: `_process` always establishes the classification invariant. -/
theorem flagInv_process (p : ArgParser) : FlagInv (process p) := by
  unfold process
  repeat' split
  all_goals first
    | exact flagInv_handleDash (fun _ => rfl)
    | (unfold FlagInv
       constructor <;> intro hcontr <;> simp_all)

/-- Helper: `next()` preserves the classification invariant. -/
theorem flagInv_next {p : ArgParser} (hI : FlagInv p) : FlagInv p.next := by
  unfold next
  cases p.state with
  | default => exact flagInv_process _
  | dash => exact flagInv_handleDash hI.1
  | value =>
      exact ⟨(fun hcontr => nomatch hcontr), (fun hcontr => nomatch hcontr)⟩

/-- Helper: `nextValue()` preserves the classification invariant. -/
theorem flagInv_nextValue {p : ArgParser} (hI : FlagInv p) :
    FlagInv p.nextValue := by
  unfold nextValue
  split
  · exact ⟨(fun hcontr => nomatch hcontr), (fun hcontr => nomatch hcontr)⟩
  · exact flagInv_next hI

/-- C10: in every reachable tokenizer state (after construction from any
raw argument list followed by any sequence of `next()` and `nextValue()`
calls), `isFlag` and `isValue` are never both true, and whenever `isDone`
holds both are false. -/
theorem c10_flag_value_exclusive_and_clear_when_done (argv : List JStr)
    (p : ArgParser) (hp : Reach argv p) :
    ¬(p.isFlag = true ∧ p.isValue = true)
  ∧ (p.isDone = true → p.isFlag = false ∧ p.isValue = false) := by
  have hInv : FlagInv p := by
    induction hp with
    | init => exact flagInv_process _
    | next _ ih => exact flagInv_next ih
    | nextValue _ ih => exact flagInv_nextValue ih
  constructor
  · rintro ⟨hf, hv⟩
    rw [hInv.1 hf] at hv
    cases hv
  · intro hd
    exact hInv.2 (Option.isNone_iff_eq_none.mp hd)

/-- Witness for C10 at a concrete reachable state. -/
theorem c10_flag_value_witness :
    ¬((ArgParser.init ["-ab".data]).next.isFlag = true
        ∧ (ArgParser.init ["-ab".data]).next.isValue = true)
  ∧ ((ArgParser.init ["-ab".data]).next.isDone = true →
      (ArgParser.init ["-ab".data]).next.isFlag = false
        ∧ (ArgParser.init ["-ab".data]).next.isValue = false) :=
  c10_flag_value_exclusive_and_clear_when_done ["-ab".data] _
    (Reach.next Reach.init)

end Climp
